import Mathlib

/-! Event selection of `AliAODForwardMult`.

A shallow embedding of the trigger-word and event-selection part of
`PWGLF/FORWARD/analysis2/AliAODForwardMult.h`.

* `UInt_t` values are natural numbers; a value is a 32-bit word when it is
  below `2 ^ 32`, and that bound is an explicit hypothesis wherever a
  statement depends on it.
* `Float_t` and `Double_t` values are modelled by their exact values
  (`Float_t` below): the code only ever compares them, and IEEE-754
  comparison is exact, so no rounding is involved.
* The per-event histogram `fHist` is left out of the object state: none of
  the member functions embedded here reads or writes it.
-/

/-- Values a `Float_t` or `Double_t` can hold, as far as comparison goes: a
not-a-number, the two infinities and the finite values (both zeros are
`fin 0`, which IEEE-754 comparison does not tell apart). -/
inductive Float_t where
  | nan : Float_t
  | negInf : Float_t
  | fin (q : ℚ) : Float_t
  | posInf : Float_t
deriving DecidableEq

/-- A `Double_t` holds every `Float_t` value exactly, and is only compared. -/
abbrev Double_t := Float_t

namespace Float_t

/-- The IEEE-754 comparison of two values: `none` when they are unordered,
that is when one of them is a not-a-number. -/
def cmp : Float_t → Float_t → Option Ordering
  | nan, _ => none
  | _, nan => none
  | negInf, negInf => some Ordering.eq
  | negInf, _ => some Ordering.lt
  | _, negInf => some Ordering.gt
  | posInf, posInf => some Ordering.eq
  | posInf, _ => some Ordering.gt
  | _, posInf => some Ordering.lt
  | fin a, fin b =>
    if a < b then some Ordering.lt
    else if a = b then some Ordering.eq
    else some Ordering.gt

/-- The C++ operator `a < b`. -/
def lt (a b : Float_t) : Bool :=
  match cmp a b with
  | some Ordering.lt => true
  | _ => false

/-- The C++ operator `a <= b`. -/
def le (a b : Float_t) : Bool :=
  match cmp a b with
  | some Ordering.lt => true
  | some Ordering.eq => true
  | _ => false

/-- The C++ operator `a > b`. -/
def gt (a b : Float_t) : Bool :=
  match cmp a b with
  | some Ordering.gt => true
  | _ => false

/-- The C++ operator `a >= b`. -/
def ge (a b : Float_t) : Bool :=
  match cmp a b with
  | some Ordering.gt => true
  | some Ordering.eq => true
  | _ => false

/-- The C++ operator `a == b`. -/
def eq (a b : Float_t) : Bool :=
  match cmp a b with
  | some Ordering.eq => true
  | _ => false

/-- The C++ operator `a != b`. -/
def ne (a b : Float_t) : Bool := !(eq a b)

end Float_t

/-- Bitwise complement of a value as a 32-bit word: the C++ `~x` on an
`int` or enumerator, converted to `UInt_t` (two-complement `-x - 1`, taken
modulo `2 ^ 32`). -/
def bitNot32 (x : Nat) : Nat := ((-(x : Int) - 1) % (2 : Int) ^ 32).toNat

/-- Conversion of an integer expression to `Bool_t` (the C++ `bool`): any
non-zero value is `true`. -/
def toBool_t (x : Nat) : Bool := x != 0

/-- Return codes of `CheckEvent` (`ECheckStatus`). -/
inductive ECheckStatus where
  | kGoodEvent
  | kWrongCentrality
  | kWrongTrigger
  | kIsPileup
  | kIsFilterOut
  | kNoVertex
  | kWrongVertex
  | kOutlierEvent
deriving DecidableEq

/-- The data members of an `AliAODForwardMult` object (without `fHist`). -/
structure AliAODForwardMult where
  /-- Whether this is from MC. -/
  fIsMC : Bool
  /-- Trigger bit mask (`UInt_t`). -/
  fTriggers : Nat
  /-- Z coordinate of the interaction point. -/
  fIpZ : Float_t
  /-- Event centrality. -/
  fCentrality : Float_t
  /-- Number of SPD clusters in |eta|<1 (`UShort_t`). -/
  fNClusters : Nat
deriving DecidableEq

namespace AliAODForwardMult

/-! ### `ETriggerBits` -/

def kInel : Nat := 0x0001
def kInelGt0 : Nat := 0x0002
def kNSD : Nat := 0x0004
def kEmpty : Nat := 0x0008
def kA : Nat := 0x0010
def kB : Nat := 0x0020
def kC : Nat := 0x0080
def kE : Nat := 0x0100
def kPileUp : Nat := 0x0200
def kMCNSD : Nat := 0x0400
def kOffline : Nat := 0x0800
def kNClusterGt0 : Nat := 0x1000
def kV0AND : Nat := 0x2000
def kSatellite : Nat := 0x4000
def kSPDOutlier : Nat := 0x8000
def kPileupSPD : Nat := 0x10000
def kPileupTrack : Nat := 0x20000
def kPileupBC : Nat := 0x40000
def kPileupBins : Nat := 0x80000
def kADOR : Nat := 0x100000
def kADAND : Nat := 0x200000
/-- Flag that says the pattern is an OR rather than an AND. -/
def kInclusive : Nat := 0x8000000
/-- Our default negative filter. -/
def kDefaultFilter : Nat := kPileupBins ||| kSPDOutlier

/-! ### Trigger information -/

/-- Source: `UInt_t GetTriggerBits() const { return fTriggers; }`. -/
def GetTriggerBits (o : AliAODForwardMult) : Nat := o.fTriggers

/-- Source: `void SetTriggerMask(UInt_t trg) { fTriggers = trg; }`. -/
def SetTriggerMask (o : AliAODForwardMult) (trg : Nat) : AliAODForwardMult :=
  { o with fTriggers := trg }

/-- Source: `void SetTriggerBits(UInt_t bits) { fTriggers |= bits; }`. -/
def SetTriggerBits (o : AliAODForwardMult) (bits : Nat) : AliAODForwardMult :=
  { o with fTriggers := o.fTriggers ||| bits }

/-- Source: `Bool_t HasTrigger() const { return fTriggers != 0; }`. -/
def HasTrigger (o : AliAODForwardMult) : Bool := o.fTriggers != 0

/-- Source: `void SetCentrality(Float_t c) { fCentrality = c; }`. -/
def SetCentrality (o : AliAODForwardMult) (c : Float_t) : AliAODForwardMult :=
  { o with fCentrality := c }

/-- Source: `Float_t GetCentrality() const { return fCentrality; }`. -/
def GetCentrality (o : AliAODForwardMult) : Float_t := o.fCentrality

/-- Source: `Bool_t HasCentrality() const { return !(fCentrality < 0); }`. -/
def HasCentrality (o : AliAODForwardMult) : Bool :=
  !(Float_t.lt o.fCentrality (Float_t.fin 0))

/-- The static `IsTriggerBits(UInt_t bits, UInt_t trig)`. -/
def IsTriggerBits (bits trig : Nat) : Bool :=
  let mask := bitNot32 kInclusive
  if toBool_t (bits &&& kInclusive) then
    decide (trig > 0) && ((trig &&& mask &&& bits) != 0)
  else
    decide (trig > 0) && ((trig &&& mask &&& bits) == bits)

/-- The member `IsTriggerBits(UInt_t bits) const`, which calls the static
function with the stored trigger word. -/
def IsTriggerBitsMember (o : AliAODForwardMult) (bits : Nat) : Bool :=
  IsTriggerBits bits o.fTriggers

/-- The member `IsTriggerOrBits(UInt_t bits) const`. -/
def IsTriggerOrBits (o : AliAODForwardMult) (bits : Nat) : Bool :=
  HasTrigger o && ((o.fTriggers &&& bits) != 0)

/-! ### Check specific trigger bits -/

def IsInel (o : AliAODForwardMult) : Bool := toBool_t (o.fTriggers &&& kInel)
def IsInelGt0 (o : AliAODForwardMult) : Bool := toBool_t (o.fTriggers &&& kInelGt0)
def IsNSD (o : AliAODForwardMult) : Bool := toBool_t (o.fTriggers &&& kNSD)
def IsEmpty (o : AliAODForwardMult) : Bool := toBool_t (o.fTriggers &&& kEmpty)
def IsBeamEmpty (o : AliAODForwardMult) : Bool := toBool_t (o.fTriggers &&& kA)
def IsBeamBeam (o : AliAODForwardMult) : Bool := toBool_t (o.fTriggers &&& kB)
def IsEmptyBeam (o : AliAODForwardMult) : Bool := toBool_t (o.fTriggers &&& kC)
def IsEmptyEmpty (o : AliAODForwardMult) : Bool := toBool_t (o.fTriggers &&& kE)
def IsPileUp (o : AliAODForwardMult) : Bool := toBool_t (o.fTriggers &&& kPileUp)
def IsMCNSD (o : AliAODForwardMult) : Bool := toBool_t (o.fTriggers &&& kMCNSD)
def IsOffline (o : AliAODForwardMult) : Bool := toBool_t (o.fTriggers &&& kOffline)
def IsNClusterGt0 (o : AliAODForwardMult) : Bool := toBool_t (o.fTriggers &&& kNClusterGt0)
def IsV0AND (o : AliAODForwardMult) : Bool := toBool_t (o.fTriggers &&& kV0AND)
def IsSatellite (o : AliAODForwardMult) : Bool := toBool_t (o.fTriggers &&& kSatellite)
def IsSPDOutlier (o : AliAODForwardMult) : Bool := toBool_t (o.fTriggers &&& kSPDOutlier)
def IsPileupSPD (o : AliAODForwardMult) : Bool := toBool_t (o.fTriggers &&& kPileupSPD)
def IsPileupTrack (o : AliAODForwardMult) : Bool := toBool_t (o.fTriggers &&& kPileupTrack)
def IsPileupBC (o : AliAODForwardMult) : Bool := toBool_t (o.fTriggers &&& kPileupBC)
def IsPileupBins (o : AliAODForwardMult) : Bool := toBool_t (o.fTriggers &&& kPileupBins)

/-! ### Primary interaction point -/

/-- The member `InRange(Float_t low, Float_t high) const`.  `HasIpZ()` is only declared
in the header, so its implementation is the parameter `hasIpZ`. -/
def InRange (hasIpZ : AliAODForwardMult → Bool) (o : AliAODForwardMult)
    (low high : Float_t) : Bool :=
  hasIpZ o && Float_t.ge o.fIpZ low && Float_t.lt o.fIpZ high

/-- Modelled from the spec: the body of `HasIpZ()` and the value of the
sentinel `fgkInvalidIpZ` are in the implementation file, which is not part of
the sources at hand; the spec says "vertex is valid iff z ≠ sentinel".  The
sentinel is a parameter. -/
def HasIpZ (fgkInvalidIpZ : Float_t) (o : AliAODForwardMult) : Bool :=
  Float_t.ne o.fIpZ fgkInvalidIpZ

/-! ### General tests

`CheckEvent` and `FilterEvent` are declared in the header and implemented in
the implementation file, so both are modelled from the spec (section 4.3).
The two optional histograms only receive counts and do not influence the
decision; the model returns the terminal status, and the boolean result is
"status is good event". -/

/-- Modelled from the spec: the body of `CheckEvent` is not in the header.
Steps 2 to 6 of the spec, in the fixed order and with early exit on the
first failure: trigger check, veto check, vertex check, centrality check. -/
def CheckEventStatus (hasIpZ : AliAODForwardMult → Bool) (o : AliAODForwardMult)
    (triggerMask : Nat) (vzMin vzMax cMin cMax : Double_t) (filterMask : Nat) :
    ECheckStatus :=
  if !(IsTriggerBitsMember o triggerMask) then ECheckStatus.kWrongTrigger
  else if filterMask != 0 && IsTriggerOrBits o filterMask then ECheckStatus.kIsFilterOut
  else if !(InRange hasIpZ o vzMin vzMax) then
    (if !(hasIpZ o) then ECheckStatus.kNoVertex else ECheckStatus.kWrongVertex)
  else if Float_t.ge cMin cMax then ECheckStatus.kGoodEvent
  else if !(HasCentrality o && Float_t.le cMin o.fCentrality
            && Float_t.lt o.fCentrality cMax) then ECheckStatus.kWrongCentrality
  else ECheckStatus.kGoodEvent

/-- Modelled from the spec: the body of `CheckEvent` is not in the header;
"Return value is `true` only for good event". -/
def CheckEvent (hasIpZ : AliAODForwardMult → Bool) (o : AliAODForwardMult)
    (triggerMask : Nat) (vzMin vzMax cMin cMax : Double_t) (filterMask : Nat) : Bool :=
  CheckEventStatus hasIpZ o triggerMask vzMin vzMax cMin cMax filterMask
    == ECheckStatus.kGoodEvent

/-- Modelled from the spec: the body of `FilterEvent` is not in the header;
"the same pipeline restricted to steps 1, 3, 4 (trigger-mask step omitted)",
that is the veto check followed by the vertex check. -/
def FilterEventStatus (hasIpZ : AliAODForwardMult → Bool) (o : AliAODForwardMult)
    (vzMin vzMax : Double_t) (filterMask : Nat) : ECheckStatus :=
  if filterMask != 0 && IsTriggerOrBits o filterMask then ECheckStatus.kIsFilterOut
  else if !(InRange hasIpZ o vzMin vzMax) then
    (if !(hasIpZ o) then ECheckStatus.kNoVertex else ECheckStatus.kWrongVertex)
  else ECheckStatus.kGoodEvent

/-- Modelled from the spec: the body of `FilterEvent` is not in the header;
the result is `true` only for good event. -/
def FilterEvent (hasIpZ : AliAODForwardMult → Bool) (o : AliAODForwardMult)
    (vzMin vzMax : Double_t) (filterMask : Nat) : Bool :=
  FilterEventStatus hasIpZ o vzMin vzMax filterMask == ECheckStatus.kGoodEvent

/-- The nineteen single-bit accessors, each with the enumerator it tests. -/
def singleBitAccessors : List ((AliAODForwardMult → Bool) × Nat) :=
  [(IsInel, kInel), (IsInelGt0, kInelGt0), (IsNSD, kNSD), (IsEmpty, kEmpty),
   (IsBeamEmpty, kA), (IsBeamBeam, kB), (IsEmptyBeam, kC), (IsEmptyEmpty, kE),
   (IsPileUp, kPileUp), (IsMCNSD, kMCNSD), (IsOffline, kOffline),
   (IsNClusterGt0, kNClusterGt0), (IsV0AND, kV0AND), (IsSatellite, kSatellite),
   (IsSPDOutlier, kSPDOutlier), (IsPileupSPD, kPileupSPD),
   (IsPileupTrack, kPileupTrack), (IsPileupBC, kPileupBC),
   (IsPileupBins, kPileupBins)]

/-- The enumerators of `ETriggerBits` that each stand for one trigger or
condition: all of them but the flag `kInclusive` and the combination
`kDefaultFilter`. -/
def realTriggerBits : List Nat :=
  [kInel, kInelGt0, kNSD, kEmpty, kA, kB, kC, kE, kPileUp, kMCNSD, kOffline,
   kNClusterGt0, kV0AND, kSatellite, kSPDOutlier, kPileupSPD, kPileupTrack,
   kPileupBC, kPileupBins, kADOR, kADAND]

/-- Every enumerator of `ETriggerBits` other than `kDefaultFilter`. -/
def triggerBitConstants : List Nat := realTriggerBits ++ [kInclusive]

end AliAODForwardMult

/-- An event record used to evaluate the definitions on concrete input:
inelastic trigger with an SPD tracklet, vertex at 2.5 cm, centrality 30. -/
def sampleEvent : AliAODForwardMult :=
  { fIsMC := false, fTriggers := 0x3, fIpZ := Float_t.fin (5 / 2),
    fCentrality := Float_t.fin 30, fNClusters := 7 }

/-- An event record without a centrality estimate and with the vertex at the
upper edge of the default range. -/
def edgeEvent : AliAODForwardMult :=
  { fIsMC := true, fTriggers := 0x80001, fIpZ := Float_t.fin 10,
    fCentrality := Float_t.fin (-1), fNClusters := 0 }

/-! ## Bit-level facts -/

theorem bitNot32_kInclusive : bitNot32 AliAODForwardMult.kInclusive = 0xF7FFFFFF := by
  decide

theorem testBit_notInclusive (i : Nat) :
    (0xF7FFFFFF : Nat).testBit i = (decide (i < 32) && !decide (i = 27)) := by
  have h : (0xF7FFFFFF : Nat) = (2 ^ 32 - 1) ^^^ 2 ^ 27 := by decide
  rw [h, Nat.testBit_xor, Nat.testBit_two_pow_sub_one, Nat.testBit_two_pow]
  by_cases h1 : i < 32 <;> by_cases h2 : i = 27 <;> simp [h1, h2] <;> omega

theorem testBit_kInclusive (i : Nat) :
    AliAODForwardMult.kInclusive.testBit i = decide (i = 27) := by
  have h : AliAODForwardMult.kInclusive = 2 ^ 27 := by decide
  rw [h, Nat.testBit_two_pow]
  by_cases h2 : i = 27
  · simp [h2]
  · simp [h2]
    omega

theorem testBit_of_lt_word {x : Nat} (hx : x < 2 ^ 32) {i : Nat} (hi : 32 ≤ i) :
    x.testBit i = false :=
  Nat.testBit_lt_two_pow (lt_of_lt_of_le hx (Nat.pow_le_pow_right (by decide) hi))

theorem testBit_27_of_clean {x : Nat} (hk : x &&& AliAODForwardMult.kInclusive = 0) :
    x.testBit 27 = false := by
  have h := congrArg (fun n => Nat.testBit n 27) hk
  simpa [testBit_kInclusive] using h

/-- Stripping the flag from a 32-bit mask that does not carry it changes nothing. -/
theorem notInclusive_and_clean {bits : Nat} (hb : bits < 2 ^ 32)
    (hk : bits &&& AliAODForwardMult.kInclusive = 0) : 0xF7FFFFFF &&& bits = bits := by
  apply Nat.eq_of_testBit_eq
  intro i
  rw [Nat.testBit_and, testBit_notInclusive]
  by_cases h1 : i < 32
  · by_cases h2 : i = 27
    · subst h2
      simp [testBit_27_of_clean hk]
    · simp [h1, h2]
  · simp [h1, testBit_of_lt_word hb (Nat.le_of_not_lt h1)]

/-- The stripped trigger word meets `mask | kInclusive` where it meets the
stripped mask. -/
theorem strip_and_inclusive (trg mask : Nat) :
    trg &&& 0xF7FFFFFF &&& (mask ||| AliAODForwardMult.kInclusive)
      = trg &&& (mask &&& 0xF7FFFFFF) := by
  apply Nat.eq_of_testBit_eq
  intro i
  simp only [Nat.testBit_and, Nat.testBit_or, testBit_notInclusive, testBit_kInclusive]
  by_cases h1 : i < 32 <;> by_cases h2 : i = 27 <;> simp [h1, h2]


/-! ## Comparison of floating-point values -/

namespace Float_t

theorem lt_fin (a b : ℚ) : lt (fin a) (fin b) = decide (a < b) := by
  rcases lt_trichotomy a b with h | h | h
  · simp [lt, cmp, h]
  · simp [lt, cmp, h]
  · simp [lt, cmp, not_lt_of_lt h, ne_of_gt h]

theorem le_fin (a b : ℚ) : le (fin a) (fin b) = decide (a ≤ b) := by
  rcases lt_trichotomy a b with h | h | h
  · simp [le, cmp, h, le_of_lt h]
  · simp [le, cmp, h]
  · simp [le, cmp, not_lt_of_lt h, ne_of_gt h, not_le_of_lt h]

theorem ge_fin (a b : ℚ) : ge (fin a) (fin b) = decide (b ≤ a) := by
  rcases lt_trichotomy a b with h | h | h
  · simp [ge, cmp, h, not_le_of_lt h]
  · simp [ge, cmp, h]
  · simp [ge, cmp, not_lt_of_lt h, ne_of_gt h, le_of_lt h]

theorem eq_fin (a b : ℚ) : eq (fin a) (fin b) = decide (a = b) := by
  rcases lt_trichotomy a b with h | h | h
  · simp [eq, cmp, h, ne_of_lt h]
  · simp [eq, cmp, h]
  · simp [eq, cmp, not_lt_of_lt h, ne_of_gt h]

/-- IEEE-754: `a >= b` holds exactly when `b <= a` does. -/
theorem ge_eq_le_swap (a b : Float_t) : ge a b = le b a := by
  cases a <;> cases b <;> first | rfl | simp [ge_fin, le_fin]

theorem ge_and_lt_of_eq {z low high : Float_t} (hz : eq z low = true)
    (hl : lt low high = true) : ge z low = true ∧ lt z high = true := by
  cases z <;> cases low <;> cases high <;>
    first
    | (simp [eq, cmp] at hz; done)
    | (simp [lt, cmp] at hl; done)
    | (simp [ge, lt, cmp]; done)
    | (simp only [eq_fin, lt_fin, ge_fin, decide_eq_true_eq] at *
       subst hz
       exact ⟨le_refl _, hl⟩)

theorem not_lt_of_eq {z high : Float_t} (hz : eq z high = true) : lt z high = false := by
  cases z <;> cases high <;>
    first
    | (simp [eq, cmp] at hz; done)
    | (simp [lt, cmp]; done)
    | (simp only [eq_fin, lt_fin, decide_eq_true_eq] at *
       subst hz
       simp)

theorem ge_self_fin (a : ℚ) : ge (fin a) (fin a) = true := by
  simp [ge_fin]

end Float_t

theorem pos_iff_ne_zero_decide (t : Nat) : decide (t > 0) = true ↔ t ≠ 0 := by
  simp [Nat.pos_iff_ne_zero]

/-- What the static matcher computes on a mask without the flag. -/
theorem IsTriggerBits_clean (bits trg : Nat)
    (hk : bits &&& AliAODForwardMult.kInclusive = 0) :
    AliAODForwardMult.IsTriggerBits bits trg
      = (decide (trg > 0) && ((trg &&& 0xF7FFFFFF &&& bits) == bits)) := by
  simp [AliAODForwardMult.IsTriggerBits, toBool_t, hk, bitNot32_kInclusive]

/-- What the static matcher computes on a mask with the flag. -/
theorem IsTriggerBits_inclusive (bits trg : Nat)
    (hk : bits &&& AliAODForwardMult.kInclusive ≠ 0) :
    AliAODForwardMult.IsTriggerBits bits trg
      = (decide (trg > 0) && ((trg &&& 0xF7FFFFFF &&& bits) != 0)) := by
  simp [AliAODForwardMult.IsTriggerBits, toBool_t, hk, bitNot32_kInclusive]

theorem or_kInclusive_and_ne_zero (mask : Nat) :
    (mask ||| AliAODForwardMult.kInclusive) &&& AliAODForwardMult.kInclusive ≠ 0 := by
  intro h
  have h27 := congrArg (fun n => Nat.testBit n 27) h
  simp [testBit_kInclusive] at h27

namespace AliAODForwardMult

/-- C1: AND semantics. For a 32-bit mask `bits` without the `kInclusive` bit
and any trigger word `trg`, the static `IsTriggerBits(bits, trg)` is true
exactly when `trg != 0` and `(trg & bits) == bits`; the one-argument member
gives the same answer with `trg` the stored `fTriggers`. -/
theorem IsTriggerBits_and_semantics (bits trg : Nat) (o : AliAODForwardMult)
    (hb : bits < 2 ^ 32) (hk : bits &&& kInclusive = 0) :
    (IsTriggerBits bits trg = true ↔ (trg ≠ 0 ∧ trg &&& bits = bits)) ∧
    IsTriggerBitsMember o bits = IsTriggerBits bits o.fTriggers ∧
    (IsTriggerBitsMember o bits = true
      ↔ (o.fTriggers ≠ 0 ∧ o.fTriggers &&& bits = bits)) := by
  have key : ∀ t : Nat, IsTriggerBits bits t = true ↔ (t ≠ 0 ∧ t &&& bits = bits) := by
    intro t
    rw [IsTriggerBits_clean bits t hk, Nat.and_assoc, notInclusive_and_clean hb hk]
    simp [Nat.pos_iff_ne_zero]
  exact ⟨key trg, rfl, key o.fTriggers⟩

/-- C1, evaluated: the mask `kInel | kInelGt0` on the sample event. -/
theorem IsTriggerBits_and_semantics_witness :
    (IsTriggerBits 0x3 0x7 = true ↔ ((0x7 : Nat) ≠ 0 ∧ (0x7 : Nat) &&& 0x3 = 0x3)) ∧
    IsTriggerBitsMember sampleEvent 0x3 = IsTriggerBits 0x3 sampleEvent.fTriggers ∧
    (IsTriggerBitsMember sampleEvent 0x3 = true
      ↔ (sampleEvent.fTriggers ≠ 0 ∧ sampleEvent.fTriggers &&& 0x3 = 0x3)) :=
  IsTriggerBits_and_semantics 0x3 0x7 sampleEvent (by decide) (by decide)

/-- C2 as stated fails: with `mask = kInclusive` and `trg = kInclusive` the
right-hand side holds (`trg != 0` and `(trg & mask) != 0`) while
`IsTriggerBits(mask | kInclusive, trg)` is false. -/
theorem IsTriggerBits_or_semantics_counterexample :
    ¬ (IsTriggerBits (0x8000000 ||| kInclusive) 0x8000000 = true
        ↔ ((0x8000000 : Nat) ≠ 0 ∧ (0x8000000 : Nat) &&& 0x8000000 ≠ 0)) := by
  decide

/-- C2 (amended): OR semantics over the stripped mask. For every `mask` and
every trigger word `trg`, `IsTriggerBits(mask | kInclusive, trg)` is true
exactly when `trg != 0` and `(trg & (mask & ~kInclusive)) != 0`; when the
32-bit `mask` does not carry `kInclusive` this is `(trg & mask) != 0`. -/
theorem IsTriggerBits_or_semantics (mask trg : Nat) :
    (IsTriggerBits (mask ||| kInclusive) trg = true
      ↔ (trg ≠ 0 ∧ trg &&& (mask &&& bitNot32 kInclusive) ≠ 0)) ∧
    (mask < 2 ^ 32 → mask &&& kInclusive = 0 →
      (IsTriggerBits (mask ||| kInclusive) trg = true
        ↔ (trg ≠ 0 ∧ trg &&& mask ≠ 0))) := by
  have key : IsTriggerBits (mask ||| kInclusive) trg = true
      ↔ (trg ≠ 0 ∧ trg &&& (mask &&& bitNot32 kInclusive) ≠ 0) := by
    rw [IsTriggerBits_inclusive _ trg (or_kInclusive_and_ne_zero mask),
      strip_and_inclusive, bitNot32_kInclusive]
    simp [Nat.pos_iff_ne_zero]
  refine ⟨key, fun hb hk => ?_⟩
  rw [key, bitNot32_kInclusive, Nat.and_comm mask, notInclusive_and_clean hb hk]

/-- C2 (amended), evaluated: the mask `kInel | kNSD` against the word
`kNSD | kInclusive`, and the same mask with the flag already in it. -/
theorem IsTriggerBits_or_semantics_witness :
    (IsTriggerBits (0x8000005 ||| kInclusive) 0x8000004 = true
      ↔ ((0x8000004 : Nat) ≠ 0
          ∧ (0x8000004 : Nat) &&& (0x8000005 &&& bitNot32 kInclusive) ≠ 0)) ∧
    (IsTriggerBits (0x5 ||| kInclusive) 0x8000004 = true
      ↔ ((0x8000004 : Nat) ≠ 0 ∧ (0x8000004 : Nat) &&& 0x5 ≠ 0)) :=
  ⟨(IsTriggerBits_or_semantics 0x8000005 0x8000004).1,
   (IsTriggerBits_or_semantics 0x5 0x8000004).2 (by decide) (by decide)⟩

/-- C3: an event without trigger bits never matches. For every mask `m`,
`IsTriggerBits(m, 0)` is false, and on an object whose stored trigger word
is 0, `IsTriggerOrBits(m)` is false. -/
theorem no_trigger_never_matches (m : Nat) (o : AliAODForwardMult)
    (h0 : o.fTriggers = 0) :
    IsTriggerBits m 0 = false ∧ IsTriggerOrBits o m = false := by
  constructor
  · unfold IsTriggerBits
    split <;> simp
  · simp [IsTriggerOrBits, HasTrigger, h0]

/-- C3, evaluated: the empty mask and a mask with the flag, on an object
whose trigger word has been reset. -/
theorem no_trigger_never_matches_witness :
    (IsTriggerBits 0 0 = false ∧ IsTriggerOrBits (SetTriggerMask sampleEvent 0) 0 = false) ∧
    (IsTriggerBits (kInel ||| kInclusive) 0 = false
      ∧ IsTriggerOrBits (SetTriggerMask sampleEvent 0) (kInel ||| kInclusive) = false) :=
  ⟨no_trigger_never_matches 0 (SetTriggerMask sampleEvent 0) rfl,
   no_trigger_never_matches (kInel ||| kInclusive) (SetTriggerMask sampleEvent 0) rfl⟩

end AliAODForwardMult

namespace AliAODForwardMult

/-- C4: half-open vertex range. `InRange(low, high)` is false whenever
`HasIpZ()` is false, and otherwise is true exactly when `low <= z < high`;
with a valid vertex, `z == low` with `low < high` gives true, and
`z == high` gives false. -/
theorem InRange_half_open (hasIpZ : AliAODForwardMult → Bool) (o : AliAODForwardMult)
    (low high : Float_t) :
    (hasIpZ o = false → InRange hasIpZ o low high = false) ∧
    (hasIpZ o = true →
      (InRange hasIpZ o low high = true
        ↔ (Float_t.le low o.fIpZ = true ∧ Float_t.lt o.fIpZ high = true))) ∧
    (hasIpZ o = true → Float_t.eq o.fIpZ low = true → Float_t.lt low high = true →
      InRange hasIpZ o low high = true) ∧
    (Float_t.eq o.fIpZ high = true → InRange hasIpZ o low high = false) := by
  refine ⟨fun hv => ?_, fun hv => ?_, fun hv hz hl => ?_, fun hz => ?_⟩
  · simp [InRange, hv]
  · simp [InRange, hv, Float_t.ge_eq_le_swap]
  · obtain ⟨h1, h2⟩ := Float_t.ge_and_lt_of_eq hz hl
    simp [InRange, hv, h1, h2]
  · simp [InRange, Float_t.not_lt_of_eq hz]

/-- C4, evaluated with the sentinel at 1000000: an object whose vertex is the
sentinel, the sample event inside [-10, 10), a vertex on the lower edge and
the edge event with its vertex on the upper edge. -/
theorem InRange_half_open_witness :
    InRange (HasIpZ (Float_t.fin 1000000))
      { sampleEvent with fIpZ := Float_t.fin 1000000 }
      (Float_t.fin (-10)) (Float_t.fin 10) = false ∧
    (InRange (HasIpZ (Float_t.fin 1000000)) sampleEvent
        (Float_t.fin (-10)) (Float_t.fin 10) = true
      ↔ (Float_t.le (Float_t.fin (-10)) sampleEvent.fIpZ = true
          ∧ Float_t.lt sampleEvent.fIpZ (Float_t.fin 10) = true)) ∧
    InRange (HasIpZ (Float_t.fin 1000000)) edgeEvent
      (Float_t.fin 10) (Float_t.fin 20) = true ∧
    InRange (HasIpZ (Float_t.fin 1000000)) edgeEvent
      (Float_t.fin (-10)) (Float_t.fin 10) = false :=
  ⟨(InRange_half_open _ _ _ _).1 (by decide),
   (InRange_half_open _ _ _ _).2.1
     (by simp [HasIpZ, Float_t.ne, Float_t.eq_fin, sampleEvent]; norm_num),
   (InRange_half_open _ _ _ _).2.2.1 (by decide) (by decide) (by decide),
   (InRange_half_open _ _ _ _).2.2.2 (by decide)⟩

/-- C5: plain-OR matcher. For every `bits` and every stored trigger word,
`IsTriggerOrBits(bits)` is true exactly when the word is non-zero and
`(word & bits) != 0`; the `kInclusive` bit is an ordinary bit here, both in
the argument and in the word. -/
theorem IsTriggerOrBits_plain_or (o : AliAODForwardMult) (bits : Nat) :
    (IsTriggerOrBits o bits = true ↔ (o.fTriggers ≠ 0 ∧ o.fTriggers &&& bits ≠ 0)) ∧
    IsTriggerOrBits (SetTriggerMask o kInclusive) kInclusive = true := by
  refine ⟨by simp [IsTriggerOrBits, HasTrigger], ?_⟩
  simp only [IsTriggerOrBits, HasTrigger, SetTriggerMask]
  decide

end AliAODForwardMult

/-! ## The event filter -/

/-- The decision of `CheckEvent` as a conjunction of its four checks. -/
theorem CheckEvent_iff (hasIpZ : AliAODForwardMult → Bool) (o : AliAODForwardMult)
    (triggerMask : Nat) (vzMin vzMax cMin cMax : Double_t) (filterMask : Nat) :
    AliAODForwardMult.CheckEvent hasIpZ o triggerMask vzMin vzMax cMin cMax filterMask = true
      ↔ (o.IsTriggerBitsMember triggerMask = true
          ∧ ¬ (filterMask ≠ 0 ∧ o.IsTriggerOrBits filterMask = true)
          ∧ AliAODForwardMult.InRange hasIpZ o vzMin vzMax = true
          ∧ (Float_t.ge cMin cMax = true
              ∨ (o.HasCentrality = true ∧ Float_t.le cMin o.fCentrality = true
                  ∧ Float_t.lt o.fCentrality cMax = true))) := by
  simp only [AliAODForwardMult.CheckEvent, AliAODForwardMult.CheckEventStatus]
  cases o.IsTriggerBitsMember triggerMask <;>
    cases o.IsTriggerOrBits filterMask <;>
    cases AliAODForwardMult.InRange hasIpZ o vzMin vzMax <;>
    cases hasIpZ o <;>
    cases Float_t.ge cMin cMax <;>
    cases o.HasCentrality <;>
    cases Float_t.le cMin o.fCentrality <;>
    cases Float_t.lt o.fCentrality cMax <;>
    by_cases hf : filterMask = 0 <;> simp [hf]

/-- The decision of `FilterEvent` as a conjunction of its two checks. -/
theorem FilterEvent_iff (hasIpZ : AliAODForwardMult → Bool) (o : AliAODForwardMult)
    (vzMin vzMax : Double_t) (filterMask : Nat) :
    AliAODForwardMult.FilterEvent hasIpZ o vzMin vzMax filterMask = true
      ↔ (¬ (filterMask ≠ 0 ∧ o.IsTriggerOrBits filterMask = true)
          ∧ AliAODForwardMult.InRange hasIpZ o vzMin vzMax = true) := by
  simp only [AliAODForwardMult.FilterEvent, AliAODForwardMult.FilterEventStatus]
  cases o.IsTriggerOrBits filterMask <;>
    cases AliAODForwardMult.InRange hasIpZ o vzMin vzMax <;>
    cases hasIpZ o <;>
    by_cases hf : filterMask = 0 <;> simp [hf]

namespace AliAODForwardMult

/-- C6: acceptance by `CheckEvent`. It returns true exactly when
`IsTriggerBits(triggerMask)` holds, and not (`filterMask != 0` and
`IsTriggerOrBits(filterMask)`), and `InRange(vzMin, vzMax)` holds, and either
`cMin >= cMax` or (`HasCentrality()` and `cMin <= centrality < cMax`); with
`cMin = cMax = 0` the centrality never decides, whatever it is. -/
theorem CheckEvent_acceptance (hasIpZ : AliAODForwardMult → Bool) (o : AliAODForwardMult)
    (triggerMask : Nat) (vzMin vzMax cMin cMax : Double_t) (filterMask : Nat) :
    (CheckEvent hasIpZ o triggerMask vzMin vzMax cMin cMax filterMask = true
      ↔ (IsTriggerBitsMember o triggerMask = true
          ∧ ¬ (filterMask ≠ 0 ∧ IsTriggerOrBits o filterMask = true)
          ∧ InRange hasIpZ o vzMin vzMax = true
          ∧ (Float_t.ge cMin cMax = true
              ∨ (HasCentrality o = true ∧ Float_t.le cMin o.fCentrality = true
                  ∧ Float_t.lt o.fCentrality cMax = true)))) ∧
    (CheckEvent hasIpZ o triggerMask vzMin vzMax (Float_t.fin 0) (Float_t.fin 0) filterMask
        = true
      ↔ (IsTriggerBitsMember o triggerMask = true
          ∧ ¬ (filterMask ≠ 0 ∧ IsTriggerOrBits o filterMask = true)
          ∧ InRange hasIpZ o vzMin vzMax = true)) ∧
    CheckEventStatus hasIpZ o triggerMask vzMin vzMax (Float_t.fin 0) (Float_t.fin 0)
        filterMask ≠ ECheckStatus.kWrongCentrality := by
  refine ⟨CheckEvent_iff hasIpZ o triggerMask vzMin vzMax cMin cMax filterMask, ?_, ?_⟩
  · rw [CheckEvent_iff]
    simp [Float_t.ge_self_fin]
  · simp only [CheckEventStatus, Float_t.ge_self_fin]
    cases IsTriggerBitsMember o triggerMask <;>
      cases IsTriggerOrBits o filterMask <;>
      cases InRange hasIpZ o vzMin vzMax <;>
      cases hasIpZ o <;>
      by_cases hf : filterMask = 0 <;> simp [hf]

/-- C7: `FilterEvent` is `CheckEvent` without the trigger and centrality
steps. It returns true exactly when not (`filterMask != 0` and
`IsTriggerOrBits(filterMask)`) and `InRange(vzMin, vzMax)`; whenever
`CheckEvent` accepts, `FilterEvent` with the same vertex range and filter
mask accepts as well. -/
theorem FilterEvent_of_CheckEvent (hasIpZ : AliAODForwardMult → Bool)
    (o : AliAODForwardMult) (triggerMask : Nat) (vzMin vzMax cMin cMax : Double_t)
    (filterMask : Nat) :
    (FilterEvent hasIpZ o vzMin vzMax filterMask = true
      ↔ (¬ (filterMask ≠ 0 ∧ IsTriggerOrBits o filterMask = true)
          ∧ InRange hasIpZ o vzMin vzMax = true)) ∧
    (CheckEvent hasIpZ o triggerMask vzMin vzMax cMin cMax filterMask = true →
      FilterEvent hasIpZ o vzMin vzMax filterMask = true) := by
  refine ⟨FilterEvent_iff hasIpZ o vzMin vzMax filterMask, fun hC => ?_⟩
  have h := (CheckEvent_iff hasIpZ o triggerMask vzMin vzMax cMin cMax filterMask).1 hC
  exact (FilterEvent_iff hasIpZ o vzMin vzMax filterMask).2 ⟨h.2.1, h.2.2.1⟩

/-- The sample event passes the default selection of `CheckEvent`. -/
theorem sampleEvent_accepted :
    CheckEvent (HasIpZ (Float_t.fin 1000000)) sampleEvent kInel
      (Float_t.fin (-10)) (Float_t.fin 10) (Float_t.fin 0) (Float_t.fin 100)
      kDefaultFilter = true := by
  rw [CheckEvent_iff]
  refine ⟨by decide, by decide, ?_, Or.inr ⟨?_, ?_, ?_⟩⟩
  · simp [InRange, HasIpZ, Float_t.ne, Float_t.eq_fin, Float_t.ge_fin, Float_t.lt_fin,
      sampleEvent]
    norm_num
  · simp [HasCentrality, Float_t.lt_fin, sampleEvent]
  · simp [Float_t.le_fin, sampleEvent]
  · simp [Float_t.lt_fin, sampleEvent]
    norm_num

/-- C7, evaluated: the sample event, accepted by `CheckEvent` with the
default arguments, is accepted by `FilterEvent`. -/
theorem FilterEvent_of_CheckEvent_witness :
    CheckEvent (HasIpZ (Float_t.fin 1000000)) sampleEvent kInel
      (Float_t.fin (-10)) (Float_t.fin 10) (Float_t.fin 0) (Float_t.fin 100)
      kDefaultFilter = true ∧
    FilterEvent (HasIpZ (Float_t.fin 1000000)) sampleEvent
      (Float_t.fin (-10)) (Float_t.fin 10) kDefaultFilter = true :=
  ⟨sampleEvent_accepted,
   (FilterEvent_of_CheckEvent (HasIpZ (Float_t.fin 1000000)) sampleEvent kInel
      (Float_t.fin (-10)) (Float_t.fin 10) (Float_t.fin 0) (Float_t.fin 100)
      kDefaultFilter).2 sampleEvent_accepted⟩

end AliAODForwardMult

/-! ## The two OR matchers, the setters and the single-bit accessors -/

/-- The matcher with the flag set is the plain-OR matcher on the stripped mask. -/
theorem IsTriggerBits_inclusive_eq_or (o : AliAODForwardMult) (bits : Nat) :
    o.IsTriggerBitsMember (bits ||| AliAODForwardMult.kInclusive)
      = o.IsTriggerOrBits (bits &&& bitNot32 AliAODForwardMult.kInclusive) := by
  simp only [AliAODForwardMult.IsTriggerBitsMember, AliAODForwardMult.IsTriggerOrBits,
    AliAODForwardMult.HasTrigger]
  rw [IsTriggerBits_inclusive _ _ (or_kInclusive_and_ne_zero bits), strip_and_inclusive,
    bitNot32_kInclusive]
  by_cases h : o.fTriggers = 0 <;> simp [h, Nat.pos_iff_ne_zero]

/-- A trigger word meets a single bit exactly when it contains it. -/
theorem and_two_pow_eq_iff (t j : Nat) : t &&& 2 ^ j = 2 ^ j ↔ t &&& 2 ^ j ≠ 0 := by
  have hp : (2 : Nat) ^ j ≠ 0 := Nat.pos_iff_ne_zero.mp (Nat.pow_pos (by decide))
  rw [Nat.and_two_pow]
  cases t.testBit j <;> simp [Ne.symm hp]

/-- The three ways of testing one trigger bit other than the flag agree. -/
theorem single_bit_tests (o : AliAODForwardMult) (k j : Nat) (hk : k = 2 ^ j)
    (hj : j < 32) (h27 : j ≠ 27) :
    toBool_t (o.fTriggers &&& k) = decide (o.fTriggers &&& k ≠ 0) ∧
    toBool_t (o.fTriggers &&& k) = o.IsTriggerBitsMember k ∧
    toBool_t (o.fTriggers &&& k) = o.IsTriggerOrBits k := by
  have hlt : k < 2 ^ 32 := by
    rw [hk]
    exact Nat.pow_lt_pow_right (by decide) hj
  have hclean : k &&& AliAODForwardMult.kInclusive = 0 := by
    apply Nat.eq_of_testBit_eq
    intro i
    rw [hk, Nat.testBit_and, Nat.testBit_two_pow, testBit_kInclusive]
    by_cases h1 : j = i
    · subst h1
      simp [h27]
    · simp [h1]
  have hne : o.fTriggers &&& k ≠ 0 → o.fTriggers ≠ 0 := by
    intro h h0
    exact h (by simp [h0])
  have hk0 : k ≠ 0 := by
    rw [hk]
    exact Nat.pos_iff_ne_zero.mp (Nat.pow_pos (by decide))
  refine ⟨?_, ?_, ?_⟩
  · by_cases h : o.fTriggers &&& k = 0 <;> simp [toBool_t, h]
  · rw [AliAODForwardMult.IsTriggerBitsMember, IsTriggerBits_clean k _ hclean,
      Nat.and_assoc, notInclusive_and_clean hlt hclean]
    by_cases h : o.fTriggers &&& k = 0
    · simp [toBool_t, h, Ne.symm hk0]
    · have h2 : o.fTriggers &&& k = k := by
        rw [hk] at h ⊢
        exact (and_two_pow_eq_iff _ _).2 h
      simp [toBool_t, h2, hk0, Nat.pos_iff_ne_zero, hne h]
  · by_cases h : o.fTriggers &&& k = 0
    · simp [toBool_t, AliAODForwardMult.IsTriggerOrBits, h]
    · simp [toBool_t, AliAODForwardMult.IsTriggerOrBits, AliAODForwardMult.HasTrigger, h,
        hne h]

/-- A trigger word stays a 32-bit word when 32-bit bits are added to it. -/
theorem SetTriggerBits_word (o : AliAODForwardMult) (bits : Nat)
    (ht : o.fTriggers < 2 ^ 32) (hb : bits < 2 ^ 32) :
    (o.SetTriggerBits bits).fTriggers < 2 ^ 32 :=
  Nat.or_lt_two_pow ht hb

namespace AliAODForwardMult

/-- C8 as stated fails: on an object whose trigger word is `kInclusive`,
`IsTriggerOrBits(kInclusive)` is true while
`IsTriggerBits(kInclusive | kInclusive)` is false. -/
theorem IsTriggerOrBits_eq_inclusive_counterexample :
    IsTriggerOrBits (SetTriggerMask sampleEvent 0x8000000) 0x8000000 = true ∧
    IsTriggerBitsMember (SetTriggerMask sampleEvent 0x8000000) (0x8000000 ||| kInclusive)
      = false ∧
    IsTriggerOrBits (SetTriggerMask sampleEvent 0x8000000) 0x8000000
      ≠ IsTriggerBitsMember (SetTriggerMask sampleEvent 0x8000000)
          (0x8000000 ||| kInclusive) := by
  decide

/-- C8 (amended): for every `bits` and every stored 32-bit trigger word,
`IsTriggerBits(bits | kInclusive)` returns the same result as
`IsTriggerOrBits(bits & ~kInclusive)`, and the same result as
`IsTriggerOrBits(bits)` whenever `bits` and the stored word do not both
contain the `kInclusive` bit. -/
theorem IsTriggerOrBits_eq_inclusive (o : AliAODForwardMult) (bits : Nat)
    (ht : o.fTriggers < 2 ^ 32) (hk : o.fTriggers &&& bits &&& kInclusive = 0) :
    IsTriggerBitsMember o (bits ||| kInclusive)
      = IsTriggerOrBits o (bits &&& bitNot32 kInclusive) ∧
    IsTriggerOrBits o bits = IsTriggerBitsMember o (bits ||| kInclusive) := by
  refine ⟨IsTriggerBits_inclusive_eq_or o bits, ?_⟩
  have hlt : o.fTriggers &&& bits < 2 ^ 32 := by
    rw [Nat.and_comm]
    exact Nat.and_lt_two_pow bits ht
  have hstrip : o.fTriggers &&& (bits &&& bitNot32 kInclusive) = o.fTriggers &&& bits := by
    rw [bitNot32_kInclusive, ← Nat.and_assoc, Nat.and_comm, notInclusive_and_clean hlt hk]
  rw [IsTriggerBits_inclusive_eq_or, IsTriggerOrBits, IsTriggerOrBits, hstrip]

/-- C8 (amended), evaluated: the mask `kInel | kInclusive` on the sample
event, whose trigger word `kInel | kInelGt0` does not carry the flag. -/
theorem IsTriggerOrBits_eq_inclusive_witness :
    IsTriggerBitsMember sampleEvent (0x8000001 ||| kInclusive)
      = IsTriggerOrBits sampleEvent (0x8000001 &&& bitNot32 kInclusive) ∧
    IsTriggerOrBits sampleEvent 0x8000001
      = IsTriggerBitsMember sampleEvent (0x8000001 ||| kInclusive) :=
  IsTriggerOrBits_eq_inclusive sampleEvent 0x8000001 (by decide) (by decide)

/-- C9: `SetTriggerBits` only adds bits. After `SetTriggerBits(bits)`,
`GetTriggerBits()` is the old word or-ed with `bits`, so every bit set before
is still set; after `SetTriggerMask(trg)`, `GetTriggerBits()` is `trg`
whatever the old word was; neither call changes the stored vertex z,
centrality or cluster count (nor the simulation flag). -/
theorem SetTriggerBits_only_adds (o : AliAODForwardMult) (bits trg : Nat) :
    GetTriggerBits (SetTriggerBits o bits) = GetTriggerBits o ||| bits ∧
    GetTriggerBits (SetTriggerBits o bits) &&& GetTriggerBits o = GetTriggerBits o ∧
    GetTriggerBits (SetTriggerMask o trg) = trg ∧
    SetTriggerBits o bits = { o with fTriggers := o.fTriggers ||| bits } ∧
    SetTriggerMask o trg = { o with fTriggers := trg } ∧
    ((SetTriggerBits o bits).fIpZ = o.fIpZ
      ∧ (SetTriggerBits o bits).fCentrality = o.fCentrality
      ∧ (SetTriggerBits o bits).fNClusters = o.fNClusters
      ∧ (SetTriggerBits o bits).fIsMC = o.fIsMC) ∧
    ((SetTriggerMask o trg).fIpZ = o.fIpZ
      ∧ (SetTriggerMask o trg).fCentrality = o.fCentrality
      ∧ (SetTriggerMask o trg).fNClusters = o.fNClusters
      ∧ (SetTriggerMask o trg).fIsMC = o.fIsMC) := by
  refine ⟨rfl, ?_, rfl, rfl, rfl, ⟨rfl, rfl, rfl, rfl⟩, ⟨rfl, rfl, rfl, rfl⟩⟩
  show (o.fTriggers ||| bits) &&& o.fTriggers = o.fTriggers
  apply Nat.eq_of_testBit_eq
  intro i
  simp only [Nat.testBit_and, Nat.testBit_or]
  cases o.fTriggers.testBit i <;> simp

/-- C10: each named single-bit accessor reports exactly its bit. For every
stored trigger word and each of the nineteen accessors with its enumerator
`kX`, the accessor is true exactly when `(word & kX) != 0`, and this equals
both `IsTriggerBits(kX)` and `IsTriggerOrBits(kX)`. -/
theorem single_bit_accessors (o : AliAODForwardMult)
    (p : (AliAODForwardMult → Bool) × Nat) (hp : p ∈ singleBitAccessors) :
    p.1 o = decide (o.fTriggers &&& p.2 ≠ 0) ∧
    p.1 o = IsTriggerBitsMember o p.2 ∧
    p.1 o = IsTriggerOrBits o p.2 := by
  simp only [singleBitAccessors, List.mem_cons, List.mem_singleton, List.not_mem_nil,
    or_false] at hp
  rcases hp with h | h | h | h | h | h | h | h | h | h | h | h | h | h | h | h | h | h | h <;>
    subst h
  · exact single_bit_tests o kInel 0 (by decide) (by decide) (by decide)
  · exact single_bit_tests o kInelGt0 1 (by decide) (by decide) (by decide)
  · exact single_bit_tests o kNSD 2 (by decide) (by decide) (by decide)
  · exact single_bit_tests o kEmpty 3 (by decide) (by decide) (by decide)
  · exact single_bit_tests o kA 4 (by decide) (by decide) (by decide)
  · exact single_bit_tests o kB 5 (by decide) (by decide) (by decide)
  · exact single_bit_tests o kC 7 (by decide) (by decide) (by decide)
  · exact single_bit_tests o kE 8 (by decide) (by decide) (by decide)
  · exact single_bit_tests o kPileUp 9 (by decide) (by decide) (by decide)
  · exact single_bit_tests o kMCNSD 10 (by decide) (by decide) (by decide)
  · exact single_bit_tests o kOffline 11 (by decide) (by decide) (by decide)
  · exact single_bit_tests o kNClusterGt0 12 (by decide) (by decide) (by decide)
  · exact single_bit_tests o kV0AND 13 (by decide) (by decide) (by decide)
  · exact single_bit_tests o kSatellite 14 (by decide) (by decide) (by decide)
  · exact single_bit_tests o kSPDOutlier 15 (by decide) (by decide) (by decide)
  · exact single_bit_tests o kPileupSPD 16 (by decide) (by decide) (by decide)
  · exact single_bit_tests o kPileupTrack 17 (by decide) (by decide) (by decide)
  · exact single_bit_tests o kPileupBC 18 (by decide) (by decide) (by decide)
  · exact single_bit_tests o kPileupBins 19 (by decide) (by decide) (by decide)

/-- C10, evaluated: `IsPileupBins` (bit 0x80000, above the low 8 bits) on
the edge event, whose trigger word is `kInel | kPileupBins`. -/
theorem single_bit_accessors_witness :
    IsPileupBins edgeEvent = decide (edgeEvent.fTriggers &&& kPileupBins ≠ 0) ∧
    IsPileupBins edgeEvent = IsTriggerBitsMember edgeEvent kPileupBins ∧
    IsPileupBins edgeEvent = IsTriggerOrBits edgeEvent kPileupBins :=
  single_bit_accessors edgeEvent (IsPileupBins, kPileupBins)
    (by simp [singleBitAccessors])

end AliAODForwardMult

/-! ## Validity predicates and the trigger-bit enumeration -/

/-- A word contains a mask exactly when it has every bit of the mask. -/
theorem and_eq_right_iff_testBit (t a : Nat) :
    t &&& a = a ↔ ∀ i, a.testBit i = true → t.testBit i = true := by
  constructor
  · intro h i hi
    have hb := congrArg (fun n => Nat.testBit n i) h
    simp only [Nat.testBit_and, hi, Bool.and_true] at hb
    exact hb
  · intro h
    apply Nat.eq_of_testBit_eq
    intro i
    rw [Nat.testBit_and]
    cases hi : a.testBit i
    · simp
    · simp [h i hi]

theorem or_eq_zero_iff_both (x y : Nat) : x ||| y = 0 ↔ x = 0 ∧ y = 0 := by
  constructor
  · intro h
    have hb : ∀ i, (x.testBit i || y.testBit i) = false := by
      intro i
      rw [← Nat.testBit_or, h, Nat.zero_testBit]
    constructor
    · apply Nat.eq_of_testBit_eq
      intro i
      have := hb i
      simp only [Bool.or_eq_false_iff] at this
      simp [this.1]
    · apply Nat.eq_of_testBit_eq
      intro i
      have := hb i
      simp only [Bool.or_eq_false_iff] at this
      simp [this.2]
  · rintro ⟨rfl, rfl⟩
    rfl

/-- Stripping the flag from a mask keeps every bit of a 32-bit pattern that
does not carry the flag. -/
theorem strip_keeps_clean (mask : Nat) {k : Nat} (hk : k < 2 ^ 32)
    (hc : k &&& AliAODForwardMult.kInclusive = 0) :
    (mask &&& bitNot32 AliAODForwardMult.kInclusive) &&& k = mask &&& k := by
  rw [bitNot32_kInclusive, Nat.and_assoc, notInclusive_and_clean hk hc]

namespace AliAODForwardMult

/-- C11 as stated fails: a not-a-number centrality is not `>= 0`, yet
`HasCentrality()` reports it as valid. -/
theorem validity_predicates_counterexample :
    ¬ (HasCentrality (SetCentrality sampleEvent Float_t.nan) = true
        ↔ Float_t.ge (GetCentrality (SetCentrality sampleEvent Float_t.nan))
            (Float_t.fin 0) = true) := by
  decide

/-- C11 (amended): `HasCentrality()` is true exactly when `c < 0` is false;
for every stored centrality `c` that is a number this is exactly `c >= 0`,
and a not-a-number centrality is reported as valid. `HasTrigger()` is true
exactly when the stored trigger word is non-zero. -/
theorem validity_predicates (o : AliAODForwardMult) :
    (HasCentrality o = true ↔ Float_t.lt o.fCentrality (Float_t.fin 0) = false) ∧
    (o.fCentrality ≠ Float_t.nan →
      (HasCentrality o = true ↔ Float_t.ge o.fCentrality (Float_t.fin 0) = true)) ∧
    (o.fCentrality = Float_t.nan → HasCentrality o = true) ∧
    (HasTrigger o = true ↔ o.fTriggers ≠ 0) := by
  refine ⟨by simp [HasCentrality], fun hn => ?_, fun hn => ?_, by simp [HasTrigger]⟩
  · cases hc : o.fCentrality with
    | nan => exact absurd hc hn
    | negInf => simp [HasCentrality, hc, Float_t.lt, Float_t.ge, Float_t.cmp]
    | fin q => simp [HasCentrality, hc, Float_t.lt_fin, Float_t.ge_fin]
    | posInf => simp [HasCentrality, hc, Float_t.lt, Float_t.ge, Float_t.cmp]
  · simp [HasCentrality, hn, Float_t.lt, Float_t.cmp]

/-- C11 (amended), evaluated: the sample event (centrality 30), the edge
event (centrality -1) and an object with a not-a-number centrality. -/
theorem validity_predicates_witness :
    (HasCentrality sampleEvent = true
      ↔ Float_t.ge sampleEvent.fCentrality (Float_t.fin 0) = true) ∧
    (HasCentrality edgeEvent = true
      ↔ Float_t.ge edgeEvent.fCentrality (Float_t.fin 0) = true) ∧
    HasCentrality (SetCentrality sampleEvent Float_t.nan) = true ∧
    (HasTrigger sampleEvent = true ↔ sampleEvent.fTriggers ≠ 0) :=
  ⟨(validity_predicates sampleEvent).2.1 (by decide),
   (validity_predicates edgeEvent).2.1 (by decide),
   (validity_predicates (SetCentrality sampleEvent Float_t.nan)).2.2.1 rfl,
   (validity_predicates sampleEvent).2.2.2⟩

/-- C12: trigger bits are independent. Every enumerator of `ETriggerBits`
other than `kDefaultFilter` is a single set bit below `2 ^ 32`, the
enumerators are pairwise distinct, `kInclusive` shares no bit with any real
trigger bit, and stripping `kInclusive` from a mask keeps every real trigger
bit the mask asks for. -/
theorem trigger_bits_independent :
    (∀ k ∈ triggerBitConstants, ∃ j, j < 32 ∧ k = 2 ^ j) ∧
    triggerBitConstants.Pairwise (fun a b => a ≠ b) ∧
    triggerBitConstants.length = 22 ∧
    (∀ k ∈ realTriggerBits, k &&& kInclusive = 0) ∧
    (∀ k ∈ realTriggerBits, ∀ mask : Nat,
      (mask &&& bitNot32 kInclusive) &&& k = mask &&& k) := by
  have hclean : ∀ k ∈ realTriggerBits, k &&& kInclusive = 0 := by decide
  have hword : ∀ k ∈ realTriggerBits, k < 2 ^ 32 := by decide
  refine ⟨by decide, by decide, rfl, hclean, fun k hk mask => ?_⟩
  exact strip_keeps_clean mask (hword k hk) (hclean k hk)

/-- C12, evaluated: `kPileupBins` is bit 19, does not meet `kInclusive`, and
survives the stripping of the mask `kPileupBins | kInel | kInclusive`. -/
theorem trigger_bits_independent_witness :
    (∃ j, j < 32 ∧ kPileupBins = 2 ^ j) ∧
    kPileupBins &&& kInclusive = 0 ∧
    (0x8080001 &&& bitNot32 kInclusive) &&& kPileupBins = 0x8080001 &&& kPileupBins :=
  ⟨trigger_bits_independent.1 kPileupBins (by decide),
   trigger_bits_independent.2.2.2.1 kPileupBins (by decide),
   trigger_bits_independent.2.2.2.2 kPileupBins (by decide) 0x8080001⟩

end AliAODForwardMult

/-! ## Default veto, combined masks and set-then-test -/

/-- The AND matcher on a 32-bit mask without the flag, as a proposition. -/
theorem IsTriggerBits_clean_iff {bits : Nat} (trg : Nat) (hb : bits < 2 ^ 32)
    (hk : bits &&& AliAODForwardMult.kInclusive = 0) :
    AliAODForwardMult.IsTriggerBits bits trg = true ↔ (trg ≠ 0 ∧ trg &&& bits = bits) := by
  rw [IsTriggerBits_clean bits trg hk, Nat.and_assoc, notInclusive_and_clean hb hk]
  simp [Nat.pos_iff_ne_zero]

/-- The OR matcher, as a proposition over the stripped mask. -/
theorem IsTriggerBits_inclusive_iff (mask trg : Nat) :
    AliAODForwardMult.IsTriggerBits (mask ||| AliAODForwardMult.kInclusive) trg = true
      ↔ (trg ≠ 0 ∧ trg &&& (mask &&& 0xF7FFFFFF) ≠ 0) := by
  rw [IsTriggerBits_inclusive _ trg (or_kInclusive_and_ne_zero mask), strip_and_inclusive]
  simp [Nat.pos_iff_ne_zero]

theorem or_clean {a b : Nat} (hka : a &&& AliAODForwardMult.kInclusive = 0)
    (hkb : b &&& AliAODForwardMult.kInclusive = 0) :
    (a ||| b) &&& AliAODForwardMult.kInclusive = 0 := by
  rw [Nat.and_comm, Nat.and_or_distrib_left, Nat.and_comm _ a, Nat.and_comm _ b, hka, hkb]
  rfl

theorem and_or_eq_iff (t a b : Nat) :
    t &&& (a ||| b) = a ||| b ↔ (t &&& a = a ∧ t &&& b = b) := by
  simp only [and_eq_right_iff_testBit, Nat.testBit_or, Bool.or_eq_true]
  constructor
  · intro h
    exact ⟨fun i hi => h i (Or.inl hi), fun i hi => h i (Or.inr hi)⟩
  · rintro ⟨h1, h2⟩ i (hi | hi)
    · exact h1 i hi
    · exact h2 i hi

theorem and_strip_or (t a b : Nat) :
    t &&& ((a ||| b) &&& 0xF7FFFFFF)
      = (t &&& (a &&& 0xF7FFFFFF)) ||| (t &&& (b &&& 0xF7FFFFFF)) := by
  apply Nat.eq_of_testBit_eq
  intro i
  simp only [Nat.testBit_and, Nat.testBit_or]
  cases t.testBit i <;> cases a.testBit i <;> cases b.testBit i <;>
    cases (0xF7FFFFFF : Nat).testBit i <;> rfl

theorem or_and_self_right (t bits : Nat) : (t ||| bits) &&& bits = bits := by
  apply Nat.eq_of_testBit_eq
  intro i
  simp only [Nat.testBit_and, Nat.testBit_or]
  cases t.testBit i <;> cases bits.testBit i <;> rfl

namespace AliAODForwardMult

/-- C13: default veto. `kDefaultFilter` is non-zero and equals
`kPileupBins | kSPDOutlier`, so `IsTriggerOrBits(kDefaultFilter)` is true
exactly when `IsPileupBins()` or `IsSPDOutlier()` is; it shares no bit with
`kInel`, so an event whose trigger word is exactly `kInel` passes both
`IsTriggerBits(kInel)` and the default veto. -/
theorem default_veto (o : AliAODForwardMult) :
    kDefaultFilter ≠ 0 ∧
    kDefaultFilter = kPileupBins ||| kSPDOutlier ∧
    IsTriggerOrBits o kDefaultFilter = (IsPileupBins o || IsSPDOutlier o) ∧
    kDefaultFilter &&& kInel = 0 ∧
    (o.fTriggers = kInel →
      IsTriggerBitsMember o kInel = true ∧ IsTriggerOrBits o kDefaultFilter = false) := by
  refine ⟨by decide, rfl, ?_, by decide, fun h => ?_⟩
  · have hsplit : o.fTriggers &&& kDefaultFilter
        = (o.fTriggers &&& kPileupBins) ||| (o.fTriggers &&& kSPDOutlier) :=
      Nat.and_or_distrib_left _ _ _
    have hz : o.fTriggers = 0 → o.fTriggers &&& kPileupBins = 0 := by
      intro h0
      simp [h0]
    have hz2 : o.fTriggers = 0 → o.fTriggers &&& kSPDOutlier = 0 := by
      intro h0
      simp [h0]
    rw [Bool.eq_iff_iff]
    simp only [IsTriggerOrBits, HasTrigger, IsPileupBins, IsSPDOutlier, toBool_t, hsplit,
      Bool.and_eq_true, Bool.or_eq_true, bne_iff_ne, ne_eq, or_eq_zero_iff_both]
    tauto
  · simp only [IsTriggerBitsMember, IsTriggerOrBits, HasTrigger, h]
    decide

/-- C13, evaluated: an object whose trigger word is set to exactly `kInel`. -/
theorem default_veto_witness :
    IsTriggerBitsMember (SetTriggerMask edgeEvent kInel) kInel = true ∧
    IsTriggerOrBits (SetTriggerMask edgeEvent kInel) kDefaultFilter = false :=
  (default_veto (SetTriggerMask edgeEvent kInel)).2.2.2.2 rfl

end AliAODForwardMult

namespace AliAODForwardMult

/-- C14: combining masks combines the tests. For 32-bit masks `a` and `b`
without the `kInclusive` bit and every trigger word `trg`,
`IsTriggerBits(a | b, trg)` is `IsTriggerBits(a, trg)` and
`IsTriggerBits(b, trg)`, and `IsTriggerBits(a | b | kInclusive, trg)` is
`IsTriggerBits(a | kInclusive, trg)` or `IsTriggerBits(b | kInclusive, trg)`;
for non-zero `a` a match in AND mode implies a match in OR mode, while the
empty mask accepts every non-zero `trg` in AND mode and none in OR mode. -/
theorem IsTriggerBits_combine (a b trg : Nat) (ha : a < 2 ^ 32) (hb : b < 2 ^ 32)
    (hka : a &&& kInclusive = 0) (hkb : b &&& kInclusive = 0) :
    IsTriggerBits (a ||| b) trg = (IsTriggerBits a trg && IsTriggerBits b trg) ∧
    IsTriggerBits (a ||| b ||| kInclusive) trg
      = (IsTriggerBits (a ||| kInclusive) trg || IsTriggerBits (b ||| kInclusive) trg) ∧
    (a ≠ 0 → IsTriggerBits a trg = true → IsTriggerBits (a ||| kInclusive) trg = true) ∧
    IsTriggerBits 0 trg = decide (trg ≠ 0) ∧
    IsTriggerBits (0 ||| kInclusive) trg = false := by
  refine ⟨?_, ?_, fun h0 hm => ?_, ?_, ?_⟩
  · rw [Bool.eq_iff_iff, Bool.and_eq_true,
      IsTriggerBits_clean_iff trg (Nat.or_lt_two_pow ha hb) (or_clean hka hkb),
      IsTriggerBits_clean_iff trg ha hka, IsTriggerBits_clean_iff trg hb hkb, and_or_eq_iff]
    tauto
  · rw [Bool.eq_iff_iff, Bool.or_eq_true, IsTriggerBits_inclusive_iff,
      IsTriggerBits_inclusive_iff, IsTriggerBits_inclusive_iff, and_strip_or]
    simp only [ne_eq, or_eq_zero_iff_both]
    tauto
  · obtain ⟨ht, hc⟩ := (IsTriggerBits_clean_iff trg ha hka).1 hm
    rw [IsTriggerBits_inclusive_iff, Nat.and_comm a, notInclusive_and_clean ha hka, hc]
    exact ⟨ht, h0⟩
  · rw [Bool.eq_iff_iff, IsTriggerBits_clean_iff trg (by decide) (by decide)]
    simp
  · rw [← Bool.not_eq_true, IsTriggerBits_inclusive_iff]
    simp

/-- C14, evaluated: the masks `kInel` and `kNSD` against the trigger word
`kInel | kInelGt0`. -/
theorem IsTriggerBits_combine_witness :
    IsTriggerBits (0x1 ||| 0x4) 0x3 = (IsTriggerBits 0x1 0x3 && IsTriggerBits 0x4 0x3) ∧
    IsTriggerBits (0x1 ||| 0x4 ||| kInclusive) 0x3
      = (IsTriggerBits (0x1 ||| kInclusive) 0x3 || IsTriggerBits (0x4 ||| kInclusive) 0x3) ∧
    IsTriggerBits (0x1 ||| kInclusive) 0x3 = true ∧
    IsTriggerBits 0 0x3 = decide ((0x3 : Nat) ≠ 0) ∧
    IsTriggerBits (0 ||| kInclusive) 0x3 = false :=
  ⟨(IsTriggerBits_combine 0x1 0x4 0x3 (by decide) (by decide) (by decide) (by decide)).1,
   (IsTriggerBits_combine 0x1 0x4 0x3 (by decide) (by decide) (by decide) (by decide)).2.1,
   (IsTriggerBits_combine 0x1 0x4 0x3 (by decide) (by decide) (by decide) (by decide)).2.2.1
     (by decide) (by decide),
   (IsTriggerBits_combine 0x1 0x4 0x3 (by decide) (by decide) (by decide) (by decide)).2.2.2.1,
   (IsTriggerBits_combine 0x1 0x4 0x3 (by decide) (by decide) (by decide)
     (by decide)).2.2.2.2⟩

/-- C15: set-then-test. For every prior object state and every non-zero
32-bit `bits` without `kInclusive`, after `SetTriggerBits(bits)` the calls
`IsTriggerBits(bits)`, `IsTriggerOrBits(bits)` and `HasTrigger()` all return
true; `SetTriggerBits` is idempotent, and setting `a` then `b` leaves the same
object as setting `b` then `a` and as a single `SetTriggerBits(a | b)`. -/
theorem set_then_test (o : AliAODForwardMult) (bits a b : Nat) (hb : bits < 2 ^ 32)
    (hk : bits &&& kInclusive = 0) (h0 : bits ≠ 0) :
    IsTriggerBitsMember (SetTriggerBits o bits) bits = true ∧
    IsTriggerOrBits (SetTriggerBits o bits) bits = true ∧
    HasTrigger (SetTriggerBits o bits) = true ∧
    SetTriggerBits (SetTriggerBits o bits) bits = SetTriggerBits o bits ∧
    SetTriggerBits (SetTriggerBits o a) b = SetTriggerBits (SetTriggerBits o b) a ∧
    SetTriggerBits (SetTriggerBits o a) b = SetTriggerBits o (a ||| b) := by
  have hne : o.fTriggers ||| bits ≠ 0 := fun h => h0 ((or_eq_zero_iff_both _ _).1 h).2
  refine ⟨?_, ?_, ?_, ?_, ?_, ?_⟩
  · rw [IsTriggerBitsMember, IsTriggerBits_clean_iff _ hb hk]
    exact ⟨hne, or_and_self_right _ _⟩
  · simp only [IsTriggerOrBits, HasTrigger, SetTriggerBits, or_and_self_right]
    simp [hne, h0]
  · simp only [HasTrigger, SetTriggerBits]
    simp [hne]
  · simp only [SetTriggerBits, Nat.or_assoc, Nat.or_self]
  · simp only [SetTriggerBits, Nat.or_assoc, Nat.or_comm a b]
  · simp only [SetTriggerBits, Nat.or_assoc]

/-- C15, evaluated: adding `kNSD` to the edge event, and adding `kNSD` and
`kV0AND` in both orders. -/
theorem set_then_test_witness :
    IsTriggerBitsMember (SetTriggerBits edgeEvent 0x4) 0x4 = true ∧
    IsTriggerOrBits (SetTriggerBits edgeEvent 0x4) 0x4 = true ∧
    HasTrigger (SetTriggerBits edgeEvent 0x4) = true ∧
    SetTriggerBits (SetTriggerBits edgeEvent 0x4) 0x4 = SetTriggerBits edgeEvent 0x4 ∧
    SetTriggerBits (SetTriggerBits edgeEvent 0x4) 0x2000
      = SetTriggerBits (SetTriggerBits edgeEvent 0x2000) 0x4 ∧
    SetTriggerBits (SetTriggerBits edgeEvent 0x4) 0x2000
      = SetTriggerBits edgeEvent (0x4 ||| 0x2000) :=
  set_then_test edgeEvent 0x4 0x4 0x2000 (by decide) (by decide) (by decide)

end AliAODForwardMult
